import Mathlib

/-!
Shallow embedding of the p2p-cdn host script (src/host.py).

External effects (subprocess results, the process table, the external
ipfs daemon) are threaded explicitly: each command-shaped helper takes
the outcome of the underlying shell command as a parameter, and loops
that poll the outside world take an oracle indexed by the poll number.
A call to Python exit(), and an uncaught Python exception, are modelled
by Except.error.
-/

namespace Host

/-- Ways the Python process can terminate abnormally: a deliberate exit()
from an except-branch, or an uncaught ZeroDivisionError. -/
inductive PyErr where
  | exitCalled : PyErr
  | zeroDivision : PyErr
deriving DecidableEq, Repr

/-- IPFSClient.check_output, lines 178-183: the capture call shape.
Runs the command; on success returns its output, on any failure prints an
error and calls exit(). `ok` is the exit status of the underlying command. -/
def check_output (ok : Bool) (out : α) : Except PyErr α :=
  if ok then .ok out else .error .exitCalled

/-- Outcome of one iteration of the benchmark loop in get_stats
(lines 200-210), as delivered by the outside world:
`connectOk` — every ensure_connected call for the configured hosts
succeeded (line 203-204; each runs through the capture shape, so a
failure exits); `gcOk` — the exit status of the `repo gc` command issued
through check_output (line 205); `fetchOk` — the timed `get` command
(time_get, lines 163-175) succeeded (on failure it prints and exits);
`fetchTime` — the parsed wall-clock duration the timed fetch reported;
`connectedAfter` — the post-fetch `all(is_connected(h))` check
(line 209). -/
structure Attempt where
  connectOk : Bool
  gcOk : Bool
  fetchOk : Bool
  fetchTime : ℚ
  connectedAfter : Bool

/-- The while loop of IPFSClient.get_stats, lines 200-210.
`budget` encodes `samples * 2 - tries`, so at the top-level call
(budget = samples * 2, tries = 0) the branch `budget = 0` is exactly the
loop exit condition `tries = samples * 2`; together with the
`gets.length < samples` test this is the source condition
`len(gets) < samples and tries < samples*2`. The attempt read from `env`
is indexed by the value of `tries` before the increment on line 201. -/
def getStatsGo (env : Nat → Attempt) (samples : Nat) :
    Nat → Nat → List ℚ → Except PyErr (Nat × List ℚ)
  | 0, tries, gets => .ok (tries, gets)
  | budget + 1, tries, gets =>
    if gets.length < samples then
      let a := env tries
      match check_output a.connectOk () with
      | .error e => .error e
      | .ok _ =>
        match check_output a.gcOk () with
        | .error e => .error e
        | .ok _ =>
          match check_output a.fetchOk a.fetchTime with
          | .error e => .error e
          | .ok t =>
            getStatsGo env samples budget (tries + 1)
              (if a.connectedAfter then gets ++ [t] else gets)
    else .ok (tries, gets)

/-- The dictionary returned by get_stats, line 213. -/
structure StatsResult where
  tries : Nat
  gets : List ℚ
  average : ℚ
deriving DecidableEq, Repr

/-- IPFSClient.get_stats, lines 196-213.  After the loop, line 213
computes `sum(gets) / len(gets)`; in Python a division by zero raises
ZeroDivisionError, so an empty sample list is an abnormal termination,
not a result. -/
def getStats (samples : Nat) (env : Nat → Attempt) : Except PyErr StatsResult :=
  match getStatsGo env samples (samples * 2) 0 [] with
  | .error e => .error e
  | .ok (tries, gets) =>
    if gets.length = 0 then .error .zeroDivision
    else .ok ⟨tries, gets, gets.sum / (gets.length : ℚ)⟩

/-- The samples the loop accepts among the first `n` attempts: the fetch
times of exactly those attempts whose post-fetch connection check passed. -/
def acceptedUpTo (env : Nat → Attempt) (n : Nat) : List ℚ :=
  ((List.range n).filter (fun i => (env i).connectedAfter)).map
    (fun i => (env i).fetchTime)

/-- genHostSwarmFiles, line 221: the session id is the timestamp in epoch
seconds divided by 60 and truncated (int(time.time() / 60)); for a
non-negative timestamp this is Nat division. -/
def sessionId (t : Nat) : Nat := t / 60

/-- genHostSwarmFiles, line 223: the token strings for this session
window and the next two. -/
def sharedTokens (t : Nat) : List String :=
  (List.range 3).map (fun i => "Member of P2P CDN Session: " ++ toString (sessionId t + i))

/-- The three session windows the tokens of `sharedTokens` name. -/
def sessionWindows (t : Nat) : List Nat :=
  (List.range 3).map (fun i => sessionId t + i)

/-- Events the daemon supervisor emits: killing a stale running-but-not-ready
instance (line 97), or one background spawn attempt (lines 101-102). -/
inductive LEvent where
  | killStale : LEvent
  | spawn : LEvent
deriving DecidableEq, Repr

/-- The start loop of launch_daemon, lines 99-104:
`while not self.daemon_running(): Popen(daemon)`.  `poll i` is the
truthiness of the i-th daemon_running() call of this loop (i counted
from 0); every failed poll triggers exactly one spawn attempt, and the
loop exits at the first successful poll.  The loop is unbounded in the
source; `fuel` bounds the embedding, `none` meaning the loop had not yet
terminated after `fuel` polls.  (A Popen that raises triggers
kill_daemon in the except branch, line 104; the spawn attempt is still
counted, and the next iteration re-polls.) -/
def spawnEvents (poll : Nat → Bool) : Nat → Nat → Option (List LEvent)
  | 0, _ => none
  | fuel + 1, i =>
    if poll i then some []
    else (spawnEvents poll fuel (i + 1)).map (fun evs => LEvent.spawn :: evs)

/-- IPFSClient.launch_daemon, lines 93-108.  `avail0` is the result of the
daemon_available() readiness probe on line 94 (a `stats bitswap` call,
lines 110-120); `run0` the result of the daemon_running() process-table
query on line 96.  If already available, return at once (line 95); else
if a process is running, kill it first (line 97); then run the spawn
retry loop.  The result is the ordered trace of kill/spawn events.  The
readiness wait loop on lines 105-107 only sleeps and re-probes; it emits
no event and is not part of the trace. -/
def launch_daemon (avail0 run0 : Bool) (poll : Nat → Bool) (fuel : Nat) :
    Option (List LEvent) :=
  if avail0 then some []
  else
    let pre : List LEvent := if run0 then [LEvent.killStale] else []
    (spawnEvents poll fuel 0).map (fun evs => pre ++ evs)

/-- Outcome of kill_daemon: how many os.kill calls were made, and whether
the loop ended through the except-branch return (line 135, signal could
not be delivered) rather than through the process-table query turning
false. -/
structure KillTrace where
  attempts : Nat
  aborted : Bool
deriving DecidableEq, Repr

/-- The while loop of kill_daemon, lines 130-135.  `loopPoll j` is the
truthiness of the daemon_running() call guarding iteration j of the
loop; `deliverOk j` tells whether the os.kill in iteration j delivered
its signal (if it raises, the except branch returns from the function).
Unbounded in the source; `fuel` bounds the embedding. -/
def killLoop (loopPoll deliverOk : Nat → Bool) : Nat → Nat → Option KillTrace
  | 0, _ => none
  | fuel + 1, i =>
    if loopPoll i then
      if deliverOk i then
        (killLoop loopPoll deliverOk fuel (i + 1)).map
          (fun tr => ⟨tr.attempts + 1, tr.aborted⟩)
      else some ⟨1, true⟩
    else some ⟨0, false⟩

/-- IPFSClient.kill_daemon, lines 128-135.  The pid is captured once, by
the daemon_running() call on line 129, before the loop; every signal of
the loop targets that same `pid0` (line 133).  The returned pair records
the captured pid and the loop trace. -/
def kill_daemon (pid0 : Option Int) (loopPoll deliverOk : Nat → Bool)
    (fuel : Nat) : Option (Option Int × KillTrace) :=
  (killLoop loopPoll deliverOk fuel 0).map (fun tr => (pid0, tr))

/-- Python substring test `needle in hay` on strings viewed as character
lists: some suffix of `hay` starts with `needle`. -/
def listContains (needle : List Char) : List Char → Bool
  | [] => needle.isPrefixOf []
  | c :: rest => needle.isPrefixOf (c :: rest) || listContains needle rest

/-- IPFSNode, lines 23-27: a configured peer.  The constructor asserts
that the id occurs in the address (line 25). -/
structure IPFSNode where
  id : List Char
  address : List Char

/-- Modelled from the spec: the external daemon state the `swarm addrs`
query reports is kept as the list of connected peer addresses, printed
one per line (spec section 4.3 and section 6 treat the daemon as an opaque
service whose addrs query lists the swarm addresses of connected peers). -/
def swarmAddrsOut (conns : List (List Char)) : List Char :=
  conns.foldr (fun a acc => a ++ '\n' :: acc) []

/-- IPFSClient.is_connected, lines 148-150: a containment test of the
node id in the raw output of `swarm addrs` (the query itself runs
through the capture shape and exits on failure; here the query is taken
to have succeeded and reported `conns`). -/
def is_connected (n : IPFSNode) (conns : List (List Char)) : Bool :=
  listContains n.id (swarmAddrsOut conns)

/-- IPFSClient.ensure_connected, lines 152-154: a no-op when the node is
already connected; otherwise one `swarm connect` command through
check_output (capture shape, fatal on failure, exit status `connectOk`).
A successful connect makes the daemon add the peer address to its swarm
(spec section 4.3).  The result carries the new daemon state and the
number of connect commands issued. -/
def ensure_connected (n : IPFSNode) (conns : List (List Char))
    (connectOk : Bool) : Except PyErr (List (List Char) × Nat) :=
  if is_connected n conns then .ok (conns, 0)
  else
    match check_output connectOk () with
    | .error e => .error e
    | .ok _ => .ok (conns ++ [n.address], 1)

/-- Python bytes.strip() / str.strip(): ASCII whitespace. -/
def isPyWS (c : Char) : Bool :=
  c = ' ' || c = '\t' || c = '\n' || c = '\r' || c = '\x0b' || c = '\x0c'

/-- Python .strip(): drop whitespace from both ends. -/
def pyStrip (cs : List Char) : List Char :=
  ((cs.dropWhile isPyWS).reverse.dropWhile isPyWS).reverse

/-- Digit run of a Python base-10 int literal after the first digit:
digits, with single underscores allowed between digits. -/
def pyDigitsGo (acc : Nat) : List Char → Option Nat
  | [] => some acc
  | '_' :: rest =>
    match rest with
    | [] => none
    | d :: rest' =>
      if d.isDigit then pyDigitsGo (acc * 10 + (d.toNat - 48)) rest' else none
  | d :: rest =>
    if d.isDigit then pyDigitsGo (acc * 10 + (d.toNat - 48)) rest else none

/-- Unsigned part of Python int(): a nonempty digit sequence (with
underscore grouping allowed between digits). -/
def parsePyDigits : List Char → Option Nat
  | [] => none
  | c :: rest =>
    if c.isDigit then pyDigitsGo (c.toNat - 48) rest else none

/-- Python int(s) on an already-stripped string: optional sign, then
digits; anything else (empty string, stray characters, embedded
newlines) raises ValueError, here `none`. -/
def parsePyInt : List Char → Option Int
  | '+' :: rest => (parsePyDigits rest).map (fun n => (n : Int))
  | '-' :: rest => (parsePyDigits rest).map (fun n => -(n : Int))
  | cs => (parsePyDigits cs).map (fun n => (n : Int))

/-- IPFSClient.daemon_running, lines 122-126:
`int(check_output("pgrep ipfs").strip())` with a bare except returning
False.  `q` is `none` when the pgrep command failed (no matching
process: nonzero exit raises CalledProcessError) and `some out` when it
succeeded with output `out`.  Any parse failure of the stripped output is
caught by the same except and also yields False (`none`). -/
def daemon_running (q : Option (List Char)) : Option Int :=
  match q with
  | none => none
  | some out => parsePyInt (pyStrip out)

/-- Fixture: a benchmark environment in which every command succeeds,
every fetch takes 3 seconds, and every post-fetch check passes. -/
def envGood : Nat → Attempt := fun _ => ⟨true, true, true, 3, true⟩

/-- Fixture: a benchmark environment whose `repo gc` command exits
non-zero on every attempt. -/
def envGCFail : Nat → Attempt := fun _ => ⟨true, false, true, 0, true⟩

/-- Fixture: a peer whose id occurs in its address, as the IPFSNode
constructor asserts. -/
def nodeW : IPFSNode := ⟨"QmA".data, "/p2p/QmA".data⟩

/-- Fixture: the result get_stats returns for one desired sample in the
all-success environment `envGood`. -/
def rGood : StatsResult := ⟨1, [3], [(3 : ℚ)].sum / (([(3 : ℚ)].length : Nat) : ℚ)⟩

/-- C3: for every timestamp t, genHostSwarmFiles derives
window = t / 60 and generates exactly the three token strings for
windows t / 60, t / 60 + 1 and t / 60 + 2; at epoch 120 these are the
tokens for windows 2, 3 and 4. -/
theorem sharedTokens_windows (t : Nat) :
    sharedTokens t =
      ["Member of P2P CDN Session: " ++ toString (t / 60),
       "Member of P2P CDN Session: " ++ toString (t / 60 + 1),
       "Member of P2P CDN Session: " ++ toString (t / 60 + 2)] ∧
    sharedTokens 120 =
      ["Member of P2P CDN Session: 2",
       "Member of P2P CDN Session: 3",
       "Member of P2P CDN Session: 4"] :=
  ⟨rfl, rfl⟩

/-- C6 counterexample: at t = 59, publishing at t + 61 = 120 shifts the
windows by 2, not by 1: windows 59 gives 0,1,2 while windows 120
gives 2,3,4. -/
theorem sessionWindows_shift_cex :
    sessionWindows (59 + 61) ≠ (sessionWindows 59).map (fun w => w + 1) ∧
    sessionWindows 59 = [0, 1, 2] ∧ sessionWindows (59 + 61) = [2, 3, 4] := by
  decide

/-- C6 amended: for every timestamp t, sessionWindows t and
sessionWindows (t + 59) agree whenever t and t + 59 fall in the same
minute, and sessionWindows (t + 61) shifts all three windows by exactly
1 whenever t mod 60 is not 59 (at t mod 60 = 59 the shift is 2). -/
theorem sessionWindows_shift (t : Nat) :
    (t / 60 = (t + 59) / 60 → sessionWindows t = sessionWindows (t + 59)) ∧
    (t % 60 ≠ 59 →
      sessionWindows (t + 61) = (sessionWindows t).map (fun w => w + 1)) := by
  constructor
  · intro h
    simp [sessionWindows, sessionId, h]
  · intro h
    have h61 : (t + 61) / 60 = t / 60 + 1 := by omega
    simp [sessionWindows, sessionId, h61, List.range_succ]

/-- C6 witness: the amended theorem applied at t = 0. -/
theorem sessionWindows_shift_witness :
    sessionWindows 0 = sessionWindows (0 + 59) ∧
    sessionWindows (0 + 61) = (sessionWindows 0).map (fun w => w + 1) :=
  ⟨(sessionWindows_shift 0).1 (by decide), (sessionWindows_shift 0).2 (by decide)⟩

/-- Helper: if the first k polls starting at i all fail and poll (i + k)
succeeds, the spawn retry loop performs exactly one spawn per failed
poll and stops. -/
theorem spawnEvents_count (poll : Nat → Bool) :
    ∀ (fuel k i : Nat), (∀ j, j < k → poll (i + j) = false) →
      poll (i + k) = true → k < fuel →
      spawnEvents poll fuel i = some (List.replicate k LEvent.spawn) := by
  intro fuel
  induction fuel with
  | zero => intro k i _ _ hk; omega
  | succ f ih =>
    intro k i hf ht hk
    cases k with
    | zero =>
      have h0 : poll i = true := by simpa using ht
      simp [spawnEvents, h0]
    | succ k' =>
      have h0 : poll i = false := by simpa using hf 0 (Nat.succ_pos k')
      have hrec : spawnEvents poll f (i + 1) =
          some (List.replicate k' LEvent.spawn) := by
        refine ih k' (i + 1) (fun j hj => ?_) ?_ (by omega)
        · have := hf (j + 1) (by omega)
          have harith : i + (j + 1) = i + 1 + j := by omega
          rwa [harith] at this
        · have harith : i + (k' + 1) = i + 1 + k' := by omega
          rwa [harith] at ht
      simp [spawnEvents, h0, hrec, List.replicate_succ]

/-- C4 counterexample: with the daemon neither available nor running and
a process-table oracle that reports no match on the first five retry
polls and a match on the sixth, launch_daemon spawns exactly five
times, not six. -/
theorem launch_spawn_count_cex :
    launch_daemon false false (fun i => decide (5 ≤ i)) 10 ≠
      some (List.replicate 6 LEvent.spawn) ∧
    launch_daemon false false (fun i => decide (5 ≤ i)) 10 =
      some (List.replicate 5 LEvent.spawn) := by
  decide

/-- C4 amended: when the daemon is neither available nor already
running and the retry-loop process-table polls fail k times before the
first match, launch_daemon issues exactly k spawn attempts — one per
failed poll (five for the five-failed-polls scenario) — and issues no
further spawn once a match appears. -/
theorem launch_spawn_count (poll : Nat → Bool) (k fuel : Nat)
    (hf : ∀ j, j < k → poll j = false) (ht : poll k = true) (hk : k < fuel) :
    launch_daemon false false poll fuel =
      some (List.replicate k LEvent.spawn) := by
  have h := spawnEvents_count poll fuel k 0
    (fun j hj => by simpa using hf j hj) (by simpa using ht) hk
  simp [launch_daemon, h]

/-- C4 witness: the amended theorem applied to the
five-failed-polls-then-match oracle. -/
theorem launch_spawn_count_witness :
    launch_daemon false false (fun i => decide (5 ≤ i)) 10 =
      some (List.replicate 5 LEvent.spawn) :=
  launch_spawn_count (fun i => decide (5 ≤ i)) 5 10 (by decide) (by decide)
    (by decide)

/-- C10: daemon_running is total over all query outcomes: a failing
process-table query yields False (none); a successful query yields
exactly the Python int parse of the stripped output, so a single-pid
output yields that pid and a multi-line output (two matching
processes) fails to parse and also yields False. -/
theorem daemon_running_total (out : List Char) :
    daemon_running none = none ∧
    daemon_running (some out) = parsePyInt (pyStrip out) ∧
    daemon_running (some ("123\n".data)) = some 123 ∧
    daemon_running (some ("123\n456\n".data)) = none := by
  refine ⟨rfl, rfl, ?_, ?_⟩ <;> decide

/-- Helper: every event the spawn retry loop emits is a spawn. -/
theorem spawnEvents_all_spawn (poll : Nat → Bool) :
    ∀ (fuel i : Nat) (evs : List LEvent), spawnEvents poll fuel i = some evs →
      ∀ e ∈ evs, e = LEvent.spawn := by
  intro fuel
  induction fuel with
  | zero => intro i evs h; simp [spawnEvents] at h
  | succ f ih =>
    intro i evs h e he
    by_cases hp : poll i
    · simp [spawnEvents, hp] at h
      subst h
      simp at he
    · simp [spawnEvents, hp] at h
      obtain ⟨evs0, hevs0, rfl⟩ := h
      rcases (by simpa using he : e = LEvent.spawn ∨ e ∈ evs0) with h1 | h1
      · exact h1
      · exact ih (i + 1) evs0 hevs0 e h1

/-- C7: launch_daemon is idempotent: when the readiness probe succeeds
it returns at once with no spawn and no kill, so a second call after a
successful first one performs no duplicate spawn; and when the daemon
is running but not ready, the stale process is killed before any spawn
attempt (the kill is the first event of the trace and occurs nowhere
later). -/
theorem launch_daemon_idempotent (avail0 run0 : Bool) (poll : Nat → Bool)
    (fuel : Nat) :
    (avail0 = true → launch_daemon avail0 run0 poll fuel = some []) ∧
    (avail0 = false → run0 = true → ∀ evs,
      launch_daemon avail0 run0 poll fuel = some evs →
      evs.head? = some LEvent.killStale ∧ LEvent.killStale ∉ evs.tail) := by
  constructor
  · intro h
    simp [launch_daemon, h]
  · intro ha hr evs hevs
    subst ha; subst hr
    simp [launch_daemon] at hevs
    obtain ⟨evs0, hevs0, rfl⟩ := hevs
    refine ⟨rfl, ?_⟩
    intro hmem
    have := spawnEvents_all_spawn poll fuel 0 evs0 hevs0 LEvent.killStale
      (by simpa using hmem)
    exact LEvent.noConfusion this

/-- C7 witness: the theorem applied to a ready daemon (no events) and
to a running-but-not-ready daemon whose first retry poll succeeds. -/
theorem launch_daemon_idempotent_witness :
    launch_daemon true false (fun _ => true) 1 = some [] ∧
    ([LEvent.killStale, LEvent.spawn].head? = some LEvent.killStale ∧
      LEvent.killStale ∉ [LEvent.killStale, LEvent.spawn].tail) :=
  ⟨(launch_daemon_idempotent true false (fun _ => true) 1).1 rfl,
   (launch_daemon_idempotent false true (fun i => decide (1 ≤ i)) 3).2 rfl rfl
     [LEvent.killStale, LEvent.spawn] (by decide)⟩

/-- Helper: behaviour of the kill loop after k iterations in which the
process was still found and the signal was deliverable. -/
theorem killLoop_spec (loopPoll deliverOk : Nat → Bool) :
    ∀ (fuel i k : Nat), k < fuel →
      (∀ j, j < k → loopPoll (i + j) = true ∧ deliverOk (i + j) = true) →
      (loopPoll (i + k) = false →
        killLoop loopPoll deliverOk fuel i = some ⟨k, false⟩) ∧
      (loopPoll (i + k) = true → deliverOk (i + k) = false →
        killLoop loopPoll deliverOk fuel i = some ⟨k + 1, true⟩) := by
  intro fuel
  induction fuel with
  | zero => intro i k hk; omega
  | succ f ih =>
    intro i k hk hpre
    cases k with
    | zero =>
      constructor
      · intro h0
        have : loopPoll i = false := by simpa using h0
        simp [killLoop, this]
      · intro h0 h1
        have hp : loopPoll i = true := by simpa using h0
        have hd : deliverOk i = false := by simpa using h1
        simp [killLoop, hp, hd]
    | succ k' =>
      have hp0 : loopPoll i = true := by simpa using (hpre 0 (Nat.succ_pos k')).1
      have hd0 : deliverOk i = true := by simpa using (hpre 0 (Nat.succ_pos k')).2
      have hpre' : ∀ j, j < k' → loopPoll (i + 1 + j) = true ∧
          deliverOk (i + 1 + j) = true := by
        intro j hj
        have := hpre (j + 1) (by omega)
        have harith : i + (j + 1) = i + 1 + j := by omega
        rwa [harith] at this
      have harith : i + (k' + 1) = i + 1 + k' := by omega
      obtain ⟨ihA, ihB⟩ := ih (i + 1) k' (by omega) hpre'
      constructor
      · intro h0
        rw [harith] at h0
        simp [killLoop, hp0, hd0, ihA h0]
      · intro h0 h1
        rw [harith] at h0
        rw [harith] at h1
        simp [killLoop, hp0, hd0, ihB h0 h1]

/-- C9: kill_daemon is idempotent and safe on signal failure.  With the
pid captured once up front, if the loop finds the process on the first
k polls and every signal delivers, then: when the (k+1)-th poll no
longer finds a process the call ends normally after exactly k signals
(k = 0 covers the daemon-never-ran case, which sends no signal at
all); and when the process is still found but the signal cannot be
delivered, the call returns at once — one more attempted signal, loop
aborted — rather than spinning, the failure being treated as success
(a normal return, not an error). -/
theorem kill_daemon_spec (pid0 : Option Int) (loopPoll deliverOk : Nat → Bool)
    (k fuel : Nat) (hk : k < fuel)
    (hpre : ∀ j, j < k → loopPoll j = true ∧ deliverOk j = true) :
    (loopPoll k = false →
      kill_daemon pid0 loopPoll deliverOk fuel = some (pid0, ⟨k, false⟩)) ∧
    (loopPoll k = true → deliverOk k = false →
      kill_daemon pid0 loopPoll deliverOk fuel = some (pid0, ⟨k + 1, true⟩)) := by
  obtain ⟨hA, hB⟩ := killLoop_spec loopPoll deliverOk fuel 0 k hk
    (fun j hj => by simpa using hpre j hj)
  constructor
  · intro h0
    simp [kill_daemon, hA (by simpa using h0)]
  · intro h0 h1
    simp [kill_daemon, hB (by simpa using h0) (by simpa using h1)]

/-- C9 witness: the theorem applied to a daemon that dies after two
delivered signals, and to one whose second signal is undeliverable. -/
theorem kill_daemon_spec_witness :
    kill_daemon (some 7) (fun j => decide (j < 2)) (fun _ => true) 5 =
      some (some 7, ⟨2, false⟩) ∧
    kill_daemon (some 7) (fun _ => true) (fun j => decide (j < 1)) 5 =
      some (some 7, ⟨2, true⟩) :=
  ⟨(kill_daemon_spec (some 7) (fun j => decide (j < 2)) (fun _ => true) 2 5
      (by decide) (by decide)).1 (by decide),
   (kill_daemon_spec (some 7) (fun _ => true) (fun j => decide (j < 1)) 1 5
      (by decide) (by decide)).2 (by decide) (by decide)⟩

/-- Helper: a list that starts with `n` still does after appending. -/
theorem isPrefixOf_append_right (n : List Char) :
    ∀ l d : List Char, n.isPrefixOf l = true → n.isPrefixOf (l ++ d) = true := by
  induction n with
  | nil => intro l d _; simp [List.isPrefixOf]
  | cons a as ih =>
    intro l d h
    cases l with
    | nil => simp [List.isPrefixOf] at h
    | cons b bs =>
      simp only [List.isPrefixOf, List.cons_append, Bool.and_eq_true] at h ⊢
      exact ⟨h.1, ih bs d h.2⟩

/-- Helper: the substring test survives extending the haystack on the
right. -/
theorem listContains_mono_right (n : List Char) :
    ∀ b d : List Char, listContains n b = true → listContains n (b ++ d) = true := by
  intro b
  induction b with
  | nil =>
    intro d h
    simp [listContains] at h
    subst h
    induction d with
    | nil => simp [listContains, List.isPrefixOf]
    | cons c cs ih => simp [listContains, List.isPrefixOf]
  | cons c cs ih =>
    intro d h
    simp only [listContains, List.cons_append, Bool.or_eq_true] at h ⊢
    rcases h with h | h
    · exact Or.inl (by
        have := isPrefixOf_append_right n (c :: cs) d h
        simpa using this)
    · exact Or.inr (ih d h)

/-- Helper: the substring test survives extending the haystack on the
left. -/
theorem listContains_mono_left (n : List Char) :
    ∀ c b : List Char, listContains n b = true → listContains n (c ++ b) = true := by
  intro c
  induction c with
  | nil => intro b h; simpa using h
  | cons x xs ih =>
    intro b h
    simp [listContains]
    exact Or.inr (by simpa using ih b h)

/-- Helper: the swarm addrs report of a longer connection list splits. -/
theorem swarmAddrsOut_append (l1 l2 : List (List Char)) :
    swarmAddrsOut (l1 ++ l2) = swarmAddrsOut l1 ++ swarmAddrsOut l2 := by
  induction l1 with
  | nil => rfl
  | cons a as ih =>
    show a ++ '\n' :: swarmAddrsOut (as ++ l2) =
      (a ++ '\n' :: swarmAddrsOut as) ++ swarmAddrsOut l2
    rw [ih]
    simp

/-- C8: ensure_connected is a no-op (zero connect commands) when the
peer is already reported connected; otherwise it issues exactly one
connect command through the capture shape, which is fatal when the
command fails; after a successful ensure_connected the peer is reported
connected, and a second ensure_connected call issues no further connect
command. -/
theorem ensure_connected_spec (n : IPFSNode) (conns : List (List Char))
    (ok1 ok2 : Bool) (hinv : listContains n.id n.address = true) :
    (is_connected n conns = true → ensure_connected n conns ok1 = .ok (conns, 0)) ∧
    (is_connected n conns = false →
      ensure_connected n conns false = .error PyErr.exitCalled ∧
      ensure_connected n conns true = .ok (conns ++ [n.address], 1)) ∧
    is_connected n (conns ++ [n.address]) = true ∧
    ensure_connected n (conns ++ [n.address]) ok2 = .ok (conns ++ [n.address], 0) := by
  have hconn : is_connected n (conns ++ [n.address]) = true := by
    unfold is_connected
    rw [swarmAddrsOut_append]
    refine listContains_mono_left n.id _ _ ?_
    show listContains n.id (n.address ++ ['\n']) = true
    exact listContains_mono_right n.id n.address ['\n'] hinv
  refine ⟨?_, ?_, hconn, ?_⟩
  · intro h
    simp [ensure_connected, h]
  · intro h
    exact ⟨by simp [ensure_connected, h, check_output],
           by simp [ensure_connected, h, check_output]⟩
  · simp [ensure_connected, hconn]

/-- C8 witness: the theorem applied to a concrete peer and an empty
swarm: the first call issues the one connect command (and is fatal when
that command fails), after which the peer is connected and the second
call is a no-op. -/
theorem ensure_connected_spec_witness :
    (ensure_connected nodeW [] false = .error PyErr.exitCalled ∧
      ensure_connected nodeW [] true = .ok ([] ++ [nodeW.address], 1)) ∧
    is_connected nodeW ([] ++ [nodeW.address]) = true ∧
    ensure_connected nodeW ([] ++ [nodeW.address]) true =
      .ok ([] ++ [nodeW.address], 0) :=
  ⟨(ensure_connected_spec nodeW [] true true (by decide)).2.1 (by decide),
   (ensure_connected_spec nodeW [] true true (by decide)).2.2.1,
   (ensure_connected_spec nodeW [] true true (by decide)).2.2.2⟩

/-- Helper: size bounds of the benchmark loop.  On a normal completion
the accepted samples never exceed the desired count, the final attempt
count never exceeds the starting count plus the remaining budget, and
the sample count never exceeds the attempt count. -/
theorem getStatsGo_bounds (env : Nat → Attempt) (samples : Nat) :
    ∀ (budget tries : Nat) (gets : List ℚ) (t : Nat) (g : List ℚ),
      gets.length ≤ tries → gets.length ≤ samples →
      getStatsGo env samples budget tries gets = .ok (t, g) →
      g.length ≤ samples ∧ t ≤ tries + budget ∧ g.length ≤ t := by
  intro budget
  induction budget with
  | zero =>
    intro tries gets t g h1 h2 h3
    simp [getStatsGo] at h3
    obtain ⟨rfl, rfl⟩ := h3
    exact ⟨h2, by omega, h1⟩
  | succ b ih =>
    intro tries gets t g h1 h2 h3
    by_cases hlen : gets.length < samples
    · simp only [getStatsGo, hlen, if_true, check_output] at h3
      cases hca : (env tries).connectOk <;> simp [hca] at h3
      cases hcg : (env tries).gcOk <;> simp [hcg] at h3
      cases hcf : (env tries).fetchOk <;> simp [hcf] at h3
      have h1' : (if (env tries).connectedAfter then
          gets ++ [(env tries).fetchTime] else gets).length ≤ tries + 1 := by
        cases (env tries).connectedAfter <;> simp <;> omega
      have h2' : (if (env tries).connectedAfter then
          gets ++ [(env tries).fetchTime] else gets).length ≤ samples := by
        cases (env tries).connectedAfter <;> simp <;> omega
      obtain ⟨hA, hB, hC⟩ := ih (tries + 1) _ t g h1' h2' h3
      exact ⟨hA, by omega, hC⟩
    · simp [getStatsGo, hlen] at h3
      obtain ⟨rfl, rfl⟩ := h3
      exact ⟨h2, by omega, h1⟩

/-- Helper: the accepted samples of one more attempt. -/
theorem acceptedUpTo_succ (env : Nat → Attempt) (n : Nat) :
    acceptedUpTo env (n + 1) = acceptedUpTo env n ++
      (if (env n).connectedAfter then [(env n).fetchTime] else []) := by
  simp only [acceptedUpTo, List.range_succ, List.filter_append,
    List.map_append]
  cases h : (env n).connectedAfter <;> simp [h]

/-- Helper: on a normal completion the benchmark loop returns exactly
the fetch times of the attempts whose post-fetch connection check
passed. -/
theorem getStatsGo_accepted (env : Nat → Attempt) (samples : Nat) :
    ∀ (budget tries : Nat) (gets : List ℚ) (t : Nat) (g : List ℚ),
      gets = acceptedUpTo env tries →
      getStatsGo env samples budget tries gets = .ok (t, g) →
      g = acceptedUpTo env t := by
  intro budget
  induction budget with
  | zero =>
    intro tries gets t g h1 h3
    simp [getStatsGo] at h3
    obtain ⟨rfl, rfl⟩ := h3
    exact h1
  | succ b ih =>
    intro tries gets t g h1 h3
    by_cases hlen : gets.length < samples
    · simp only [getStatsGo, hlen, if_true, check_output] at h3
      cases hca : (env tries).connectOk <;> simp [hca] at h3
      cases hcg : (env tries).gcOk <;> simp [hcg] at h3
      cases hcf : (env tries).fetchOk <;> simp [hcf] at h3
      refine ih (tries + 1) _ t g ?_ h3
      rw [acceptedUpTo_succ, h1]
      cases (env tries).connectedAfter <;> simp
    · simp [getStatsGo, hlen] at h3
      obtain ⟨rfl, rfl⟩ := h3
      exact h1

/-- C1: for every environment and desired sample count, a get_stats run
that returns a result returns at most `samples` samples and at most
2 * samples attempts; the returned samples are exactly the fetch times
of the attempts whose post-fetch connection check passed, so an attempt
with a failing check adds no sample while still counting, and the
returned tries is at least the number of returned samples. -/
theorem getStats_bounds (samples : Nat) (env : Nat → Attempt)
    (r : StatsResult) (h : getStats samples env = .ok r) :
    r.gets.length ≤ samples ∧ r.tries ≤ samples * 2 ∧
    r.gets = acceptedUpTo env r.tries ∧ r.gets.length ≤ r.tries := by
  unfold getStats at h
  cases hgo : getStatsGo env samples (samples * 2) 0 [] with
  | error e => rw [hgo] at h; exact absurd h (by simp)
  | ok p =>
    obtain ⟨t, g⟩ := p
    rw [hgo] at h
    by_cases hg : g.length = 0
    · simp [hg] at h
    · simp only [hg, if_false] at h
      obtain ⟨hA, hB, hC⟩ := getStatsGo_bounds env samples (samples * 2) 0 []
        t g (by simp) (by simp) hgo
      have hacc := getStatsGo_accepted env samples (samples * 2) 0 [] t g
        (by simp [acceptedUpTo]) hgo
      obtain rfl := Except.ok.inj h
      exact ⟨hA, show t ≤ samples * 2 by omega, hacc, hC⟩

/-- C1 witness: the theorem applied to a run with one desired sample in
an all-success environment. -/
theorem getStats_bounds_witness :
    rGood.gets.length ≤ 1 ∧ rGood.tries ≤ 1 * 2 ∧
    rGood.gets = acceptedUpTo envGood rGood.tries ∧
    rGood.gets.length ≤ rGood.tries :=
  getStats_bounds 1 envGood rGood (by rfl)

/-- C2: whenever get_stats returns a result, at least one sample was
accepted and the returned average is exactly the arithmetic mean of the
accepted samples; and whenever the loop completes with zero accepted
samples, the mean computation divides by zero and get_stats ends in an
uncaught ZeroDivisionError, returning no result. -/
theorem getStats_average_mean (samples : Nat) (env : Nat → Attempt) :
    (∀ r, getStats samples env = .ok r →
      r.gets ≠ [] ∧ r.average = r.gets.sum / (r.gets.length : ℚ)) ∧
    (∀ t, getStatsGo env samples (samples * 2) 0 [] = .ok (t, []) →
      getStats samples env = .error PyErr.zeroDivision) := by
  constructor
  · intro r h
    unfold getStats at h
    cases hgo : getStatsGo env samples (samples * 2) 0 [] with
    | error e => rw [hgo] at h; exact absurd h (by simp)
    | ok p =>
      obtain ⟨t, g⟩ := p
      rw [hgo] at h
      by_cases hg : g.length = 0
      · simp [hg] at h
      · simp only [hg, if_false] at h
        obtain rfl := Except.ok.inj h
        exact ⟨by simpa using hg, rfl⟩
  · intro t h
    unfold getStats
    rw [h]
    simp

/-- C2 witness: the theorem applied to a one-sample all-success run and
to a zero-desired-samples run whose loop ends with no accepted sample. -/
theorem getStats_average_mean_witness :
    (rGood.gets ≠ [] ∧
      rGood.average = rGood.gets.sum / (rGood.gets.length : ℚ)) ∧
    getStats 0 envGood = .error PyErr.zeroDivision :=
  ⟨(getStats_average_mean 1 envGood).1 rGood (by rfl),
   (getStats_average_mean 0 envGood).2 0 (by rfl)⟩

/-- C5 counterexample: the garbage-collection command is not
fire-and-forget: in a run whose first attempt has every connect
succeed but `repo gc` exit non-zero, get_stats terminates the host
process through check_output (the capture shape), instead of
suppressing the failure. -/
theorem getStats_gc_fatal_cex :
    getStats 1 envGCFail = .error PyErr.exitCalled ∧
    (check_output false () : Except PyErr Unit) = .error PyErr.exitCalled :=
  ⟨rfl, rfl⟩

/-- C5 amended: during every benchmark attempt the garbage-collection
command runs through the capture call shape (check_output): on the
first attempt, if the connect commands succeed and the gc command exits
non-zero, the error is not suppressed — get_stats prints the failing
command and terminates the host process. -/
theorem getStats_gc_fatal (samples : Nat) (env : Nat → Attempt)
    (hs : 0 < samples) (hc : (env 0).connectOk = true)
    (hg : (env 0).gcOk = false) :
    getStats samples env = .error PyErr.exitCalled := by
  obtain ⟨m, hm⟩ : ∃ m, samples * 2 = m + 1 := ⟨samples * 2 - 1, by omega⟩
  unfold getStats
  rw [hm]
  simp [getStatsGo, hs, hc, hg, check_output]

/-- C5 witness: the amended theorem applied to the gc-failing fixture. -/
theorem getStats_gc_fatal_witness :
    getStats 1 envGCFail = .error PyErr.exitCalled :=
  getStats_gc_fatal 1 envGCFail (by decide) (by rfl) (by rfl)

end Host
